import Mathlib

/-!
# Verification of the dashcam video grouping / merging / thumbnail scripts

Shallow embedding of `combine-car-replay.py`, `combine-360-car-replay.py` and
`thumbnail_generator.py`.

Modelling conventions:
* Python `str` filenames are Lean `String`; Python string comparison is
  code-point lexicographic, matching Lean's `String` order.
* The regular expressions used by the scripts are anchored at the start
  (`re.match`) but not at the end; each is implemented below as a
  deterministic matcher (for these particular patterns, greedy matching with
  backtracking degenerates to maximal-run scanning because the adjacent
  character classes are disjoint).  `\d` / `[A-Z]` with `re.IGNORECASE` are
  modelled as ASCII digits / ASCII letters (non-ASCII Unicode digits and
  exotic case foldings are not modelled).
* `datetime` values are a record of calendar fields; differences of datetimes
  in whole seconds are exact, so `total_seconds()` is modelled in `ℤ`.
* Python `float` arithmetic (thumbnail geometry, sample instants, timestamp
  formatting) is modelled as exact rational arithmetic on `ℚ`.
* Filesystem state is a finite map from path to metadata (access/modification
  time); file contents are not modelled.  A raised Python exception is an
  `Except.error` carrying the state at the moment of the raise.
-/

namespace DashcamScripts

/-! ## Basenames and stable sorting -/

/-- `os.path.basename`: the part of the path after the last `/` or `\`
separator (the scripts run on Windows, where `ntpath` splits on both). -/
def basename (p : String) : String :=
  (p.toList.foldl (fun acc c => if c = '/' ∨ c = '\\' then [] else acc ++ [c]) []).asString

/-- Python string `<`: lexicographic comparison of code points. -/
def charListLt : List Char → List Char → Bool
  | _, [] => false
  | [], _ :: _ => true
  | a :: as, b :: bs => a < b || (a = b && charListLt as bs)

/-- Python string `<` on `String`. -/
def strLt (a b : String) : Bool := charListLt a.toList b.toList

/-- Insert a path into a list that is already sorted by basename, after all
entries whose basename is not strictly greater — this preserves the original
relative order of equal keys, as Python's stable `list.sort` does. -/
def insertByBasename (x : String) : List String → List String
  | [] => [x]
  | y :: ys =>
      if strLt (basename x) (basename y) then x :: y :: ys
      else y :: insertByBasename x ys

/-- `video_series.sort(key=lambda x: os.path.basename(x))`: a stable sort by
basename (any stable sort computes the same list as Python's timsort). -/
def sortByBasename (l : List String) : List String :=
  l.foldl (fun acc x => insertByBasename x acc) []

/-! ## Datetime values (`datetime.strptime(..., "%Y%m%d%H%M%S")`) -/

/-- The six calendar fields a parsed `datetime` carries here. -/
structure PyDateTime where
  year : ℕ
  month : ℕ
  day : ℕ
  hour : ℕ
  minute : ℕ
  second : ℕ
deriving DecidableEq

def isLeapYear (y : ℕ) : Bool :=
  y % 4 = 0 && (y % 100 ≠ 0 || y % 400 = 0)

def daysInMonth (y m : ℕ) : ℕ :=
  if m = 2 then (if isLeapYear y then 29 else 28)
  else if m = 4 ∨ m = 6 ∨ m = 9 ∨ m = 11 then 30
  else 31

/-- The field ranges `datetime.strptime` accepts (year 1–9999, real calendar
dates, seconds 0–59 — out-of-range fields raise `ValueError`). -/
def validDateTime (t : PyDateTime) : Bool :=
  1 ≤ t.year && t.year ≤ 9999 &&
  1 ≤ t.month && t.month ≤ 12 &&
  1 ≤ t.day && t.day ≤ daysInMonth t.year t.month &&
  t.hour ≤ 23 && t.minute ≤ 59 && t.second ≤ 59

/-- Value of a list of decimal digit characters. -/
def digitsToNat (l : List Char) : ℕ :=
  l.foldl (fun a c => 10 * a + (c.toNat - '0'.toNat)) 0

/-- `datetime.strptime(s, "%Y%m%d%H%M%S")` on a 14-digit string.  Python
raises `ValueError` (aborting the whole run) when the digits are not a valid
date; that aborting path is modelled as `none` here — every theorem below
evaluates only filenames whose matched digits form valid dates. -/
def strptime14 (l : List Char) : Option PyDateTime :=
  let t : PyDateTime :=
    { year := digitsToNat (l.take 4)
      month := digitsToNat ((l.drop 4).take 2)
      day := digitsToNat ((l.drop 6).take 2)
      hour := digitsToNat ((l.drop 8).take 2)
      minute := digitsToNat ((l.drop 10).take 2)
      second := digitsToNat ((l.drop 12).take 2) }
  if validDateTime t then some t else none

/-- Days since 1970-01-01 of a civil date (proleptic Gregorian calendar);
all intermediate quantities are nonnegative for years ≥ 1, so `ℤ`
truncating division coincides with floor division here. -/
def daysFromCivil (t : PyDateTime) : ℤ :=
  let y : ℤ := if t.month ≤ 2 then (t.year : ℤ) - 1 else (t.year : ℤ)
  let era : ℤ := y / 400
  let yoe : ℤ := y - era * 400
  let mp : ℤ := ((t.month : ℤ) + 9) % 12
  let doy : ℤ := (153 * mp + 2) / 5 + (t.day : ℤ) - 1
  let doe : ℤ := yoe * 365 + yoe / 4 - yoe / 100 + doy
  era * 146097 + doe - 719468

/-- Seconds since the epoch; `(a - b).total_seconds()` is
`toEpochSeconds a - toEpochSeconds b` (the parsed datetimes carry no
sub-second part, so the Python float difference is an exact integer). -/
def toEpochSeconds (t : PyDateTime) : ℤ :=
  daysFromCivil t * 86400 + (t.hour : ℤ) * 3600 + (t.minute : ℤ) * 60 + (t.second : ℤ)

/-- Zero-pad the decimal rendering of `n` to width `w` (Python `%02d` /
`%03d` / `%04d` on a nonnegative value). -/
def padNat (w n : ℕ) : String :=
  let s := toString n
  (List.replicate (w - s.length) '0').asString ++ s

/-- `datetime.strftime("%Y%m%d%H%M%S")`. -/
def strftime14 (t : PyDateTime) : String :=
  padNat 4 t.year ++ padNat 2 t.month ++ padNat 2 t.day ++
  padNat 2 t.hour ++ padNat 2 t.minute ++ padNat 2 t.second

/-! ## The filename regular expressions -/

/-- Does the list start with `.MP4` case-insensitively (`\.MP4` under
`re.IGNORECASE`)? -/
def mp4Suffix : List Char → Bool
  | '.' :: m :: p :: '4' :: _ => (m = 'M' ∨ m = 'm') && (p = 'P' ∨ p = 'p')
  | _ => false

/-- Greedy `.+\.MP4` / `.*\.MP4` tail: the largest `j ≥ minJ` such that
`.MP4` matches (case-insensitively) at offset `j` of `r` and every character
before it is matchable by `.` (anything but a newline). -/
def lastMp4Index (r : List Char) (minJ : ℕ) : Option ℕ :=
  (List.range (r.length + 1)).reverse.find? fun j =>
    decide (minJ ≤ j) && mp4Suffix (r.drop j) && (r.take j).all (· ≠ '\n')

/-- `re.match(r"(\d{14})_(.+\.MP4)", fn, re.IGNORECASE)`: on success, the
14 digits of group 1 and the characters of group 2. -/
def matchP1 (fn : String) : Option (List Char × List Char) :=
  let l := fn.toList
  let d := l.take 14
  if d.length = 14 ∧ d.all Char.isDigit then
    match l.drop 14 with
    | '_' :: r =>
        match lastMp4Index r 1 with
        | some j => some (d, r.take (j + 4))
        | none => none
    | _ => none
  else none

/-- `re.match(r"[A-Za-z]+(\d{8})-(\d{6})-(\d+[A-Za-z]+\.MP4)", fn,
re.IGNORECASE)`: on success, groups 1–3.  Adjacent classes are disjoint, so
each `+` run is forced to be maximal. -/
def matchP2 (fn : String) : Option (List Char × List Char × List Char) :=
  let l := fn.toList
  let ls := l.takeWhile Char.isAlpha
  if ls = [] then none
  else
    let r1 := l.drop ls.length
    let d8 := r1.take 8
    if d8.length = 8 ∧ d8.all Char.isDigit then
      match r1.drop 8 with
      | '-' :: r2 =>
          let d6 := r2.take 6
          if d6.length = 6 ∧ d6.all Char.isDigit then
            match r2.drop 6 with
            | '-' :: r3 =>
                let ds := r3.takeWhile Char.isDigit
                if ds = [] then none
                else
                  let r4 := r3.drop ds.length
                  let ls2 := r4.takeWhile Char.isAlpha
                  if ls2 = [] then none
                  else
                    let r5 := r4.drop ls2.length
                    if mp4Suffix r5 then some (d8, d6, ds ++ ls2 ++ r5.take 4)
                    else none
            | _ => none
          else none
      | _ => none
    else none

/-- `re.match(r"\d{14}_\d+([A-Z]+)\.MP4", fn, re.IGNORECASE)`: on success,
the letters of group 1. -/
def matchCam1 (fn : String) : Option (List Char) :=
  let l := fn.toList
  let d := l.take 14
  if d.length = 14 ∧ d.all Char.isDigit then
    match l.drop 14 with
    | '_' :: r =>
        let ds := r.takeWhile Char.isDigit
        if ds = [] then none
        else
          let r2 := r.drop ds.length
          let ls := r2.takeWhile Char.isAlpha
          if ls = [] then none
          else if mp4Suffix (r2.drop ls.length) then some ls
          else none
    | _ => none
  else none

/-- `re.match(r"[A-Za-z]+\d{8}-\d{6}-\d+([A-Za-z]+)\.MP4", fn,
re.IGNORECASE)`: on success, the letters of group 1. -/
def matchCam2 (fn : String) : Option (List Char) :=
  let l := fn.toList
  let ls := l.takeWhile Char.isAlpha
  if ls = [] then none
  else
    let r1 := l.drop ls.length
    let d8 := r1.take 8
    if d8.length = 8 ∧ d8.all Char.isDigit then
      match r1.drop 8 with
      | '-' :: r2 =>
          let d6 := r2.take 6
          if d6.length = 6 ∧ d6.all Char.isDigit then
            match r2.drop 6 with
            | '-' :: r3 =>
                let ds := r3.takeWhile Char.isDigit
                if ds = [] then none
                else
                  let r4 := r3.drop ds.length
                  let ls2 := r4.takeWhile Char.isAlpha
                  if ls2 = [] then none
                  else if mp4Suffix (r4.drop ls2.length) then some ls2
                  else none
            | _ => none
          else none
      | _ => none
    else none

/-! ## `combine-car-replay.py`: parsing and grouping -/

/-- `parse_video_filename` of `combine-car-replay.py`: try the old
convention (gap 120 s), then the new one (gap 200 s); otherwise
`(None, None, None)`, modelled as `none`. -/
def parse_video_filename (fn : String) : Option (PyDateTime × String × ℕ) :=
  match matchP1 fn with
  | some (d14, rest) => (strptime14 d14).map fun t => (t, rest.asString, 120)
  | none =>
      match matchP2 fn with
      | some (d8, d6, rest) =>
          (strptime14 (d8 ++ d6)).map fun t => (t, rest.asString, 200)
      | none => none

/-- `extract_camera_id` of `combine-car-replay.py`. -/
def extract_camera_id (fn : String) : Option String :=
  match matchCam1 fn with
  | some ls => some ls.asString
  | none =>
      match matchCam2 fn with
      | some ls => some ls.asString
      | none => none

/-- One entry of the `camera_groups` dict: the camera id key (possibly
`None`) and its list of videos, in insertion order. -/
def addToBucket :
    List (Option String × List String) → Option String → String →
      List (Option String × List String)
  | [], k, v => [(k, [v])]
  | (k', vs) :: rest, k, v =>
      if k' = k then (k', vs ++ [v]) :: rest
      else (k', vs) :: addToBucket rest k v

/-- Bucket videos by camera id extracted from their basename; Python dicts
iterate in key-insertion order, so `list(camera_groups.values())` is the
bucket list in first-appearance order. -/
def bucketByCamera (extract : String → Option String) (videos : List String) :
    List (List String) :=
  (videos.foldl (fun acc v => addToBucket acc (extract (basename v)) v) []).map Prod.snd

/-- `group_videos_by_camera` of `combine-car-replay.py`. -/
def group_videos_by_camera (videos : List String) : List (List String) :=
  bucketByCamera extract_camera_id videos

/-- The loop body of `group_videos_by_time` from index 1 on: `prev` is
`video_series[i-1]`, `tg` is `time_grouped`, `cg` is `current_group`.
When either timestamp fails to parse the code takes no action at all, so
the current video is neither appended nor started as a new group. -/
def timeWalk : String → List String → List (List String) → List String →
    List (List String)
  | _, [], tg, cg => if cg ≠ [] then tg ++ [cg] else tg
  | prev, v :: rest, tg, cg =>
      match parse_video_filename (basename v), parse_video_filename (basename prev) with
      | some (ct, _, maxd), some (pt, _, _) =>
          if toEpochSeconds ct - toEpochSeconds pt ≤ (maxd : ℤ) then
            timeWalk v rest tg (cg ++ [v])
          else
            timeWalk v rest (tg ++ [cg]) [v]
      | _, _ => timeWalk v rest tg cg

/-- Process one camera bucket: sort by basename, seed the current group with
the first element, then walk the rest. -/
def groupSeries (series : List String) : List (List String) :=
  match sortByBasename series with
  | [] => []
  | first :: rest => timeWalk first rest [] [first]

/-- `group_videos_by_time` of `combine-car-replay.py`: the `final_groups`
list is extended bucket by bucket, i.e. the concatenation of each bucket's
emitted groups. -/
def group_videos_by_time : List (List String) → List (List String)
  | [] => []
  | series :: more => groupSeries series ++ group_videos_by_time more

/-! ## `combine-360-car-replay.py`: parsing and grouping -/

/-- `extract_datetime_from_filename` of `combine-360-car-replay.py`:
`re.match(r"(\d{14})_.*\.MP4", fn, re.IGNORECASE)`, then `strptime`
(same `ValueError` caveat as `strptime14`). -/
def extract_datetime_from_filename (fn : String) : Option PyDateTime :=
  let l := fn.toList
  let d := l.take 14
  if d.length = 14 ∧ d.all Char.isDigit then
    match l.drop 14 with
    | '_' :: r => if (lastMp4Index r 0).isSome then strptime14 d else none
    | _ => none
  else none

/-- `extract_camera_id` of `combine-360-car-replay.py` (the old convention
only). -/
def extract_camera_id_360 (fn : String) : Option String :=
  match matchCam1 fn with
  | some ls => some ls.asString
  | none => none

/-- `group_videos_by_camera` of `combine-360-car-replay.py`. -/
def group_videos_by_camera_360 (videos : List String) : List (List String) :=
  bucketByCamera extract_camera_id_360 videos

/-- The walk of `group_videos_by_time` in `combine-360-car-replay.py`: the
gap threshold is the function parameter `max_time_difference` and timestamps
come from `extract_datetime_from_filename`; the silent-drop behaviour on a
missing timestamp is identical. -/
def timeWalk360 (maxd : ℕ) : String → List String → List (List String) →
    List String → List (List String)
  | _, [], tg, cg => if cg ≠ [] then tg ++ [cg] else tg
  | prev, v :: rest, tg, cg =>
      match extract_datetime_from_filename (basename v),
            extract_datetime_from_filename (basename prev) with
      | some ct, some pt =>
          if toEpochSeconds ct - toEpochSeconds pt ≤ (maxd : ℤ) then
            timeWalk360 maxd v rest tg (cg ++ [v])
          else
            timeWalk360 maxd v rest (tg ++ [cg]) [v]
      | _, _ => timeWalk360 maxd v rest tg cg

/-- `group_videos_by_time` of `combine-360-car-replay.py`
(`max_time_difference=120` by default). -/
def group_videos_by_time_360 (groups : List (List String)) (maxd : ℕ := 120) :
    List (List String) :=
  groups.foldl
    (fun final series =>
      match sortByBasename series with
      | [] => final
      | first :: rest => final ++ timeWalk360 maxd first rest [] [first])
    []

/-! ## Filesystem model for the mergers -/

/-- Access and modification times of one file (`st_atime` / `st_mtime`). -/
structure FileMeta where
  atime : ℤ
  mtime : ℤ
deriving DecidableEq

/-- Filesystem state: the files that exist, with their metadata (contents are
not modelled). -/
abbrev FS := List (String × FileMeta)

/-- `os.path.exists` / `os.stat` lookup. -/
def lookupFile (fs : FS) (p : String) : Option FileMeta :=
  (fs.find? fun e => e.1 = p).map Prod.snd

/-- Create or overwrite a file. -/
def setFile (fs : FS) (p : String) (m : FileMeta) : FS :=
  (fs.filter fun e => decide (e.1 ≠ p)) ++ [(p, m)]

/-- `os.remove`. -/
def removeFile (fs : FS) (p : String) : FS :=
  fs.filter fun e => decide (e.1 ≠ p)

/-- The environment of one merger run: the metadata a freshly written file
receives (`now`), the exit status the external `ffmpeg` concatenation
returns, and the metadata `ffmpeg` leaves on the destination it creates. -/
structure MergeEnv where
  now : ℤ
  ffmpegExit : ℕ
  ffmpegOut : FileMeta
deriving DecidableEq

/-- `merge_videos` of `combine-car-replay.py`.  An `Except.error` is a raised
exception (`IndexError` on an empty group, `FileNotFoundError` from
`os.stat`, `CalledProcessError` from `subprocess.run(check=True)`,
`FileNotFoundError` from `os.utime`), carrying the filesystem state at the
raise.  Note `os.remove("concat_list.txt")` runs only after a successful
`subprocess.run`, and `os.utime` runs last. -/
def merge_videos (group : List String) (combined : String) (env : MergeEnv)
    (fs : FS) : Except FS FS :=
  match group.getLast? with
  | none => .error fs
  | some last =>
      match lookupFile fs last with
      | none => .error fs
      | some lm =>
          if group.length = 1 then
            -- `shutil.copy2` copies the file and preserves atime/mtime
            .ok (setFile fs combined lm)
          else
            let fs1 := setFile fs "concat_list.txt" ⟨env.now, env.now⟩
            if env.ffmpegExit = 0 then
              let fs2 := setFile fs1 combined env.ffmpegOut
              let fs3 := removeFile fs2 "concat_list.txt"
              match lookupFile fs3 combined with
              | none => .error fs3
              | some _ => .ok (setFile fs3 combined ⟨lm.atime, lm.mtime⟩)
            else .error fs1

/-- `merge_videos` of `combine-360-car-replay.py`: same shape, but no
`os.stat` of the last member and no `os.utime` of the result — after a
successful multi-member merge the destination keeps whatever metadata the
external tool produced. -/
def merge_videos_360 (group : List String) (combined : String) (env : MergeEnv)
    (fs : FS) : Except FS FS :=
  match group.head? with
  | none => .error fs
  | some first =>
      if group.length = 1 then
        match lookupFile fs first with
        | none => .error fs
        | some m => .ok (setFile fs combined m)
      else
        let fs1 := setFile fs "concat_list.txt" ⟨env.now, env.now⟩
        if env.ffmpegExit = 0 then
          .ok (removeFile (setFile fs1 combined env.ffmpegOut) "concat_list.txt")
        else .error fs1

/-- `create_combined_filename` of `combine-car-replay.py`. -/
def create_combined_filename (first_video last_video : String) : String :=
  let first_basename := basename first_video
  let last_basename := basename last_video
  match parse_video_filename first_basename,
        parse_video_filename last_basename with
  | some (ft, first_rest, _), some (lt, _, _) =>
      strftime14 ft ++ "_" ++ strftime14 lt ++ "_" ++ first_rest
  | _, _ => first_basename

/-- `os.path.join`, modelled as separator concatenation. -/
def joinPath (a b : String) : String := a ++ "/" ++ b

/-- `os.makedirs` on the set of existing directories. -/
def makedirs (dirs : List String) (d : String) : List String :=
  if d ∈ dirs then dirs else dirs ++ [d]

/-- What the per-group loop of `process_videos_in_folder` did with a group. -/
inductive GroupAction where
  | merged
  | skippedExists
deriving DecidableEq

/-- The body of the per-group loop of `process_videos_in_folder` in
`combine-car-replay.py` (lines 168–193): take the group's first and last
member, ensure the target folder exists, build the destination name, and
merge only when the destination does not already exist.  `target_folder` is
the already-computed folder for this group (the `relpath`/`dirname`
computation is not modelled). -/
def process_group (group : List String) (target_folder : String)
    (env : MergeEnv) (fs : FS) (dirs : List String) :
    Except FS (FS × List String × GroupAction) :=
  match group.head?, group.getLast? with
  | some first, some last =>
      let dirs' := makedirs dirs target_folder
      let combined_file_path :=
        joinPath target_folder (create_combined_filename first last)
      if (lookupFile fs combined_file_path).isSome then
        .ok (fs, dirs', .skippedExists)
      else
        match merge_videos group combined_file_path env fs with
        | .ok fs' => .ok (fs', dirs', .merged)
        | .error fs' => .error fs'
  | _, _ => .error fs

/-! ## `thumbnail_generator.py` -/

/-- Truncation toward zero, Python `int()` on a float. -/
def pyInt (q : ℚ) : ℤ := if q < 0 then ⌈q⌉ else ⌊q⌋

/-- Python `round()`: round half to even. -/
def pyRound (q : ℚ) : ℤ :=
  let fl := ⌊q⌋
  let frac := q - fl
  if frac < 1 / 2 then fl
  else if 1 / 2 < frac then fl + 1
  else if 2 ∣ fl then fl else fl + 1

/-- `compute_scaled_dimensions`: Python float division and multiplication
modelled as exact rational arithmetic; `.error` models the raised
`ValueError`s. -/
def compute_scaled_dimensions (source_width source_height max_width max_height : ℤ) :
    Except Unit (ℤ × ℤ) :=
  if source_width ≤ 0 ∨ source_height ≤ 0 then .error ()
  else
    let width_scale : ℚ := (max_width : ℚ) / (source_width : ℚ)
    let height_scale : ℚ := (max_height : ℚ) / (source_height : ℚ)
    let scale := min width_scale height_scale
    if scale ≤ 0 then .error ()
    else
      .ok (max 1 (min max_width (pyInt ((source_width : ℚ) * scale))),
           max 1 (min max_height (pyInt ((source_height : ℚ) * scale))))

/-- `compute_time_points`: the duration (a Python float) modelled as an exact
rational. -/
def compute_time_points (duration : ℚ) (total_frames : ℕ) : List ℚ :=
  let interval := duration / ((total_frames : ℚ) + 1)
  (List.range total_frames).map fun (index : ℕ) => interval * ((index : ℚ) + 1)

/-- `format_timestamp`: the input seconds (a Python float) modelled as an
exact rational.  After the `max(seconds, 0.0)` clamp every padded quantity is
a nonnegative integer, so the `ℤ → ℕ` coercions below are lossless. -/
def format_timestamp (seconds : ℚ) : String :=
  let s := max seconds 0
  let whole_seconds : ℕ := (pyInt s).toNat
  let ms : ℕ := (pyRound ((s - (whole_seconds : ℚ)) * 1000)).toNat
  let whole_seconds := if ms = 1000 then whole_seconds + 1 else whole_seconds
  let milliseconds := if ms = 1000 then 0 else ms
  let hours := whole_seconds / 3600
  let minutes := (whole_seconds % 3600) / 60
  let secs := whole_seconds % 60
  padNat 2 hours ++ ":" ++ padNat 2 minutes ++ ":" ++ padNat 2 secs ++
    "." ++ padNat 3 milliseconds

/-- A loaded PIL image, reduced to its size (pixel data is not modelled). -/
structure PILImage where
  width : ℤ
  height : ℤ
deriving DecidableEq

/-- The composed contact sheet: its dimensions and, for each input image in
order, the `(x_offset, y_offset)` it is pasted at.  Only the index of an
image — never its own size — enters its paste position, so the geometry is a
function of the image count and the first image's size alone. -/
structure ContactSheet where
  width : ℤ
  height : ℤ
  pastes : List (ℤ × ℤ)
deriving DecidableEq

/-- `compose_contact_sheet`: `none` models the raised `ValueError` on an
empty image list.  Python `//` and `%` are floor division and floor modulus
(`Int.fdiv` / `Int.fmod`). -/
def compose_contact_sheet (images : List PILImage) (cols rows gap margin : ℤ) :
    Option ContactSheet :=
  match images.head? with
  | none => none
  | some img0 =>
      let thumb_width := img0.width
      let thumb_height := img0.height
      let sheet_width := cols * thumb_width + (cols - 1) * gap + 2 * margin
      let sheet_height := rows * thumb_height + (rows - 1) * gap + 2 * margin
      some
        { width := sheet_width
          height := sheet_height
          pastes :=
            (List.range images.length).map fun (index : ℕ) =>
              (margin + ((index : ℤ).fmod cols) * (thumb_width + gap),
               margin + ((index : ℤ).fdiv cols) * (thumb_height + gap)) }

/-! ## General lemmas about the filesystem model -/

theorem lookupFile_cons (a : String) (b : FileMeta) (t : FS) (q : String) :
    lookupFile ((a, b) :: t) q = if a = q then some b else lookupFile t q := by
  by_cases h : a = q <;> simp [lookupFile, List.find?_cons, h]

theorem setFile_cons (a : String) (b : FileMeta) (t : FS) (p : String) (m : FileMeta) :
    setFile ((a, b) :: t) p m =
      if a = p then setFile t p m else (a, b) :: setFile t p m := by
  by_cases h : a = p <;> simp [setFile, h]

theorem removeFile_cons (a : String) (b : FileMeta) (t : FS) (p : String) :
    removeFile ((a, b) :: t) p =
      if a = p then removeFile t p else (a, b) :: removeFile t p := by
  by_cases h : a = p <;> simp [removeFile, h]

theorem lookupFile_setFile_self (fs : FS) (p : String) (m : FileMeta) :
    lookupFile (setFile fs p m) p = some m := by
  induction fs with
  | nil => simp [lookupFile, setFile]
  | cons e t ih =>
      obtain ⟨a, b⟩ := e
      rw [setFile_cons]
      by_cases h : a = p
      · rw [if_pos h]; exact ih
      · rw [if_neg h, lookupFile_cons, if_neg h]; exact ih

theorem lookupFile_setFile_ne (fs : FS) (p q : String) (m : FileMeta)
    (h : p ≠ q) : lookupFile (setFile fs p m) q = lookupFile fs q := by
  induction fs with
  | nil => simp [lookupFile, setFile, h]
  | cons e t ih =>
      obtain ⟨a, b⟩ := e
      rw [setFile_cons]
      by_cases hap : a = p
      · have haq : ¬ a = q := fun hq => h (by rw [← hap, hq])
        rw [if_pos hap, lookupFile_cons, if_neg haq]; exact ih
      · rw [if_neg hap, lookupFile_cons, lookupFile_cons]
        by_cases haq : a = q
        · rw [if_pos haq, if_pos haq]
        · rw [if_neg haq, if_neg haq]; exact ih

theorem lookupFile_removeFile_ne (fs : FS) (p q : String) (h : p ≠ q) :
    lookupFile (removeFile fs p) q = lookupFile fs q := by
  induction fs with
  | nil => simp [lookupFile, removeFile]
  | cons e t ih =>
      obtain ⟨a, b⟩ := e
      rw [removeFile_cons]
      by_cases hap : a = p
      · have haq : ¬ a = q := fun hq => h (by rw [← hap, hq])
        rw [if_pos hap, lookupFile_cons, if_neg haq]; exact ih
      · rw [if_neg hap, lookupFile_cons, lookupFile_cons]
        by_cases haq : a = q
        · rw [if_pos haq, if_pos haq]
        · rw [if_neg haq, if_neg haq]; exact ih

/-! ## General lemmas about sorting, grouping and bucketing -/

theorem mem_insertByBasename (x y : String) (l : List String) :
    x ∈ insertByBasename y l ↔ x = y ∨ x ∈ l := by
  induction l with
  | nil => simp [insertByBasename]
  | cons z zs ih =>
      rw [insertByBasename]
      split_ifs with h
      · simp [List.mem_cons]
      · simp [List.mem_cons, ih]
        tauto

theorem mem_sortByBasename (x : String) (l : List String) :
    x ∈ sortByBasename l ↔ x ∈ l := by
  have key : ∀ (l : List String) (acc : List String),
      x ∈ l.foldl (fun acc y => insertByBasename y acc) acc ↔ x ∈ acc ∨ x ∈ l := by
    intro l
    induction l with
    | nil => simp
    | cons z zs ih =>
        intro acc
        rw [List.foldl_cons, ih, mem_insertByBasename]
        simp [List.mem_cons]
        tauto
  rw [sortByBasename, key]
  simp

/-- Every member of a group emitted by the walk comes from an already emitted
group, the current group, or the remaining series. -/
theorem timeWalk_mem (rest : List String) :
    ∀ (prev : String) (tg : List (List String)) (cg : List String)
      (g : List String) (x : String),
      g ∈ timeWalk prev rest tg cg → x ∈ g →
      (∃ g', g' ∈ tg ∧ x ∈ g') ∨ x ∈ cg ∨ x ∈ rest := by
  induction rest with
  | nil =>
      intro prev tg cg g x hg hx
      rw [timeWalk] at hg
      split_ifs at hg with h
      · rcases List.mem_append.mp hg with h1 | h1
        · exact Or.inl ⟨g, h1, hx⟩
        · simp at h1
          subst h1
          exact Or.inr (Or.inl hx)
      · exact Or.inl ⟨g, hg, hx⟩
  | cons v vs ih =>
      intro prev tg cg g x hg hx
      rw [timeWalk] at hg
      rcases hpv : parse_video_filename (basename v) with _ | ⟨ct, r1, maxd⟩ <;>
        rcases hpp : parse_video_filename (basename prev) with _ | ⟨pt, r2, d2⟩ <;>
          rw [hpv, hpp] at hg
      · rcases ih v tg cg g x hg hx with h | h | h
        · exact Or.inl h
        · exact Or.inr (Or.inl h)
        · exact Or.inr (Or.inr (List.mem_cons_of_mem v h))
      · rcases ih v tg cg g x hg hx with h | h | h
        · exact Or.inl h
        · exact Or.inr (Or.inl h)
        · exact Or.inr (Or.inr (List.mem_cons_of_mem v h))
      · rcases ih v tg cg g x hg hx with h | h | h
        · exact Or.inl h
        · exact Or.inr (Or.inl h)
        · exact Or.inr (Or.inr (List.mem_cons_of_mem v h))
      · dsimp only at hg
        split_ifs at hg with hd
        · rcases ih v tg (cg ++ [v]) g x hg hx with h | h | h
          · exact Or.inl h
          · rcases List.mem_append.mp h with h1 | h1
            · exact Or.inr (Or.inl h1)
            · simp at h1
              subst h1
              exact Or.inr (Or.inr (List.mem_cons_self _ _))
          · exact Or.inr (Or.inr (List.mem_cons_of_mem v h))
        · rcases ih v (tg ++ [cg]) [v] g x hg hx with h | h | h
          · rcases h with ⟨g', hg', hxg'⟩
            rcases List.mem_append.mp hg' with h1 | h1
            · exact Or.inl ⟨g', h1, hxg'⟩
            · simp at h1
              subst h1
              exact Or.inr (Or.inl hxg')
          · simp at h
            subst h
            exact Or.inr (Or.inr (List.mem_cons_self _ _))
          · exact Or.inr (Or.inr (List.mem_cons_of_mem v h))

theorem groupSeries_mem (series g : List String) (x : String)
    (hg : g ∈ groupSeries series) (hx : x ∈ g) : x ∈ series := by
  rw [groupSeries] at hg
  rcases hsort : sortByBasename series with _ | ⟨first, rest⟩ <;> rw [hsort] at hg
  · simp at hg
  · rcases timeWalk_mem rest first [] [first] g x hg hx with h | h | h
    · simp at h
    · simp at h
      subst h
      rw [← mem_sortByBasename, hsort]
      exact List.mem_cons_self _ _
    · rw [← mem_sortByBasename, hsort]
      exact List.mem_cons_of_mem first h

/-- Every emitted group draws all its members from a single input bucket. -/
theorem group_videos_by_time_mem (buckets : List (List String))
    (g : List String) (hg : g ∈ group_videos_by_time buckets) :
    ∃ series, series ∈ buckets ∧ ∀ x ∈ g, x ∈ series := by
  induction buckets with
  | nil => simp [group_videos_by_time] at hg
  | cons series more ih =>
      rw [group_videos_by_time] at hg
      rcases List.mem_append.mp hg with h | h
      · exact ⟨series, List.mem_cons_self _ _, fun x hx => groupSeries_mem series g x h hx⟩
      · rcases ih h with ⟨s, hs, hmem⟩
        exact ⟨s, List.mem_cons_of_mem _ hs, hmem⟩

theorem addToBucket_invariant (extract : String → Option String)
    (v : String) (k : Option String) (hk : extract (basename v) = k) :
    ∀ (acc : List (Option String × List String)),
      (∀ p ∈ acc, ∀ w ∈ p.2, extract (basename w) = p.1) →
      ∀ p ∈ addToBucket acc k v, ∀ w ∈ p.2, extract (basename w) = p.1 := by
  intro acc
  induction acc with
  | nil =>
      intro _ p hp w hw
      simp [addToBucket] at hp
      subst hp
      simp at hw
      subst hw
      exact hk
  | cons e rest ih =>
      obtain ⟨k', vs⟩ := e
      intro hacc p hp w hw
      rw [addToBucket] at hp
      split_ifs at hp with hkk
      · rcases List.mem_cons.mp hp with h | h
        · subst h
          rcases List.mem_append.mp hw with h1 | h1
          · exact hacc (k', vs) (List.mem_cons_self _ _) w h1
          · simp at h1
            subst h1
            rw [hk, hkk]
        · exact hacc p (List.mem_cons_of_mem _ h) w hw
      · rcases List.mem_cons.mp hp with h | h
        · subst h
          exact hacc (k', vs) (List.mem_cons_self _ _) w hw
        · exact ih (fun p hp => hacc p (List.mem_cons_of_mem _ hp)) p h w hw

theorem bucketByCamera_invariant (extract : String → Option String)
    (videos : List String) :
    ∀ (acc : List (Option String × List String)),
      (∀ p ∈ acc, ∀ w ∈ p.2, extract (basename w) = p.1) →
      ∀ p ∈ videos.foldl (fun acc v => addToBucket acc (extract (basename v)) v) acc,
        ∀ w ∈ p.2, extract (basename w) = p.1 := by
  induction videos with
  | nil => intro acc hacc; simpa using hacc
  | cons v vs ih =>
      intro acc hacc
      rw [List.foldl_cons]
      exact ih _ (addToBucket_invariant extract v _ rfl acc hacc)

/-- All members of one camera bucket have the same extracted camera id. -/
theorem bucketByCamera_homogeneous (extract : String → Option String)
    (videos : List String) (bucket : List String)
    (hb : bucket ∈ bucketByCamera extract videos)
    (a b : String) (ha : a ∈ bucket) (hbm : b ∈ bucket) :
    extract (basename a) = extract (basename b) := by
  rw [bucketByCamera] at hb
  rcases List.mem_map.mp hb with ⟨⟨k, vs⟩, hp, hvs⟩
  have hinv := bucketByCamera_invariant extract videos [] (by simp) _ hp
  subst hvs
  rw [hinv a ha, hinv b hbm]

/-! ## General lemmas about rounding -/

theorem pyRound_le (q : ℚ) : pyRound q ≤ ⌊q⌋ + 1 := by
  simp only [pyRound]
  split_ifs <;> omega

theorem le_pyRound (q : ℚ) : ⌊q⌋ ≤ pyRound q := by
  simp only [pyRound]
  split_ifs <;> omega

/-! ## Claim theorems -/

/-- Claim C1 states that the time-grouping walk places every segment of a
bucket into exactly one emitted group and starts a new group at `i` exactly
when a timestamp is missing or the gap is exceeded.  The code instead takes
no action at all when either timestamp fails to parse, silently dropping the
segment: on the bucket `["20250419195801_000785.MP4", "B.MP4"]` (both
basenames have no parseable camera id, so they share one bucket; sorted
order keeps them as listed, and `B.MP4` has no parseable timestamp) the walk
emits only `[["20250419195801_000785.MP4"]]` — `B.MP4` belongs to no
emitted group, where the claim requires the singleton group `["B.MP4"]` to
be started at the boundary. -/
theorem c1_walk_drops_unparseable_segment :
    group_videos_by_time [["20250419195801_000785.MP4", "B.MP4"]] =
      [["20250419195801_000785.MP4"]] ∧
    parse_video_filename (basename "B.MP4") = none := by
  constructor
  · decide
  · decide

/-- Claim C2 states that every emitted group whose members have an absent
camera id is a singleton.  Counterexample: the two files below both have
`extract_camera_id = none` (the trailing run before `.MP4` is numeric, so
neither camera pattern matches) yet both timestamps parse and differ by 4
seconds, so the code buckets them together under the `None` key and emits
them as one two-element group. -/
theorem c2_counterexample_absent_camera_merged :
    group_videos_by_time (group_videos_by_camera
        ["20250419195801_000785.MP4", "20250419195805_000786.MP4"]) =
      [["20250419195801_000785.MP4", "20250419195805_000786.MP4"]] ∧
    extract_camera_id (basename "20250419195801_000785.MP4") = none ∧
    extract_camera_id (basename "20250419195805_000786.MP4") = none := by
  refine ⟨?_, ?_, ?_⟩ <;> decide

/-- Claim C2 (amended): a segment with absent camera id is never placed in
the same emitted group as a segment whose camera id parses (all members of
an emitted group have the same extracted camera id, `none` included); two
absent-camera-id segments may however share a group. -/
theorem c2_amended_groups_camera_homogeneous
    (videos : List String) (g : List String)
    (hg : g ∈ group_videos_by_time (group_videos_by_camera videos))
    (a b : String) (ha : a ∈ g) (hb : b ∈ g) :
    extract_camera_id (basename a) = extract_camera_id (basename b) := by
  obtain ⟨series, hs, hmem⟩ := group_videos_by_time_mem _ g hg
  exact bucketByCamera_homogeneous extract_camera_id videos series hs
    a b (hmem a ha) (hmem b hb)

/-- Witness for the amended claim C2 at a concrete input. -/
theorem c2_amended_groups_camera_homogeneous_witness :
    ["20250419195801_0001AC.MP4", "20250419195802_0002AC.MP4"] ∈
        group_videos_by_time (group_videos_by_camera
          ["20250419195801_0001AC.MP4", "20250419195802_0002AC.MP4"]) ∧
    extract_camera_id (basename "20250419195801_0001AC.MP4") =
      extract_camera_id (basename "20250419195802_0002AC.MP4") :=
  ⟨by decide,
   c2_amended_groups_camera_homogeneous
     ["20250419195801_0001AC.MP4", "20250419195802_0002AC.MP4"]
     ["20250419195801_0001AC.MP4", "20250419195802_0002AC.MP4"]
     (by decide) "20250419195801_0001AC.MP4" "20250419195802_0002AC.MP4"
     (by decide) (by decide)⟩

/-- Claim C3 states the concatenation manifest `concat_list.txt` does not
exist after `merge_videos` finishes on every exit path.  The code removes it
only after a successful `subprocess.run(check=True)`: when the external tool
exits non-zero the exception propagates before `os.remove`, and the manifest
survives in the resulting state — evaluated here on a two-member group with
exit status 1. -/
theorem c3_manifest_survives_failed_merge :
    merge_videos ["a.MP4", "b.MP4"] "out.MP4" ⟨100, 1, ⟨100, 100⟩⟩
        [("a.MP4", ⟨0, 0⟩), ("b.MP4", ⟨10, 20⟩)] =
      .error [("a.MP4", ⟨0, 0⟩), ("b.MP4", ⟨10, 20⟩),
              ("concat_list.txt", ⟨100, 100⟩)] ∧
    lookupFile [("a.MP4", (⟨0, 0⟩ : FileMeta)), ("b.MP4", ⟨10, 20⟩),
        ("concat_list.txt", ⟨100, 100⟩)] "concat_list.txt" = some ⟨100, 100⟩ :=
  ⟨rfl, rfl⟩

/-- Claim C4 states that after every successful multi-member merge the
output's timestamps equal the last member's.  Counterexample: the
`combine-360-car-replay.py` variant of `merge_videos` never calls
`os.utime`, so after a successful merge the destination keeps the metadata
the external tool produced (`⟨100, 100⟩` here), not the last member's
`⟨10, 20⟩`. -/
theorem c4_counterexample_merge360_keeps_tool_times :
    merge_videos_360 ["a.MP4", "b.MP4"] "out.MP4" ⟨100, 0, ⟨100, 100⟩⟩
        [("a.MP4", ⟨0, 0⟩), ("b.MP4", ⟨10, 20⟩)] =
      .ok [("a.MP4", ⟨0, 0⟩), ("b.MP4", ⟨10, 20⟩), ("out.MP4", ⟨100, 100⟩)] ∧
    lookupFile [("a.MP4", (⟨0, 0⟩ : FileMeta)), ("b.MP4", ⟨10, 20⟩),
        ("out.MP4", ⟨100, 100⟩)] "out.MP4" = some ⟨100, 100⟩ ∧
    lookupFile [("a.MP4", (⟨0, 0⟩ : FileMeta)), ("b.MP4", ⟨10, 20⟩)] "b.MP4" =
      some ⟨10, 20⟩ ∧
    (⟨100, 100⟩ : FileMeta) ≠ (⟨10, 20⟩ : FileMeta) :=
  ⟨rfl, rfl, rfl, by decide⟩

/-- Claim C4 (amended): in `combine-car-replay.py`, after a successful
multi-member merge the output's access and modification timestamps equal the
last member's; the `combine-360-car-replay.py` variant leaves the output's
timestamps as produced by the external tool. -/
theorem c4_amended_merge_sets_last_member_times
    (group : List String) (combined : String) (env : MergeEnv) (fs : FS)
    (last : String) (lm : FileMeta)
    (hlast : group.getLast? = some last)
    (hlen : 2 ≤ group.length)
    (hmeta : lookupFile fs last = some lm)
    (hexit : env.ffmpegExit = 0)
    (hne : combined ≠ "concat_list.txt") :
    ∃ fs', merge_videos group combined env fs = .ok fs' ∧
      lookupFile fs' combined = some lm := by
  have h1 : group.length ≠ 1 := by omega
  simp only [merge_videos, hlast, hmeta]
  rw [if_neg h1, if_pos hexit]
  have hlook :
      lookupFile
        (removeFile (setFile (setFile fs "concat_list.txt" ⟨env.now, env.now⟩)
          combined env.ffmpegOut) "concat_list.txt") combined =
        some env.ffmpegOut := by
    rw [lookupFile_removeFile_ne _ _ _ (Ne.symm hne), lookupFile_setFile_self]
  rw [hlook]
  refine ⟨_, rfl, ?_⟩
  have heta : (⟨lm.atime, lm.mtime⟩ : FileMeta) = lm := rfl
  rw [heta, lookupFile_setFile_self]

/-- Witness for the amended claim C4 at a concrete input. -/
theorem c4_amended_merge_sets_last_member_times_witness :
    ∃ fs', merge_videos ["a.MP4", "b.MP4"] "out.MP4" ⟨100, 0, ⟨7, 8⟩⟩
        [("a.MP4", ⟨0, 0⟩), ("b.MP4", ⟨10, 20⟩)] = .ok fs' ∧
      lookupFile fs' "out.MP4" = some ⟨10, 20⟩ :=
  c4_amended_merge_sets_last_member_times _ _ _ _ "b.MP4" ⟨10, 20⟩
    (by decide) (by decide) (by decide) rfl (by decide)

/-- Claim C5: for a non-empty image list whose first image has size
`(w, h)`, positive `cols`/`rows` and non-negative `gap`/`margin`,
`compose_contact_sheet` returns a canvas of exactly
`cols*w + (cols-1)*gap + 2*margin` by `rows*h + (rows-1)*gap + 2*margin`
pixels, and pastes image `i` at
`(margin + (i mod cols)*(w+gap), margin + (i div cols)*(h+gap))` —
row-major, starting at `(margin, margin)`. -/
theorem c5_contact_sheet_layout
    (images : List PILImage) (img0 : PILImage) (cols rows gap margin : ℤ)
    (h0 : images.head? = some img0) (hc : 0 < cols) (_hr : 0 < rows)
    (_hg : 0 ≤ gap) (_hm : 0 ≤ margin) :
    compose_contact_sheet images cols rows gap margin =
      some
        { width := cols * img0.width + (cols - 1) * gap + 2 * margin
          height := rows * img0.height + (rows - 1) * gap + 2 * margin
          pastes :=
            (List.range images.length).map fun (i : ℕ) =>
              (margin + ((i % cols.toNat : ℕ) : ℤ) * (img0.width + gap),
               margin + ((i / cols.toNat : ℕ) : ℤ) * (img0.height + gap)) } := by
  have hcolsnn : (0 : ℤ) ≤ cols := hc.le
  have hcast : ((cols.toNat : ℕ) : ℤ) = cols := Int.toNat_of_nonneg hcolsnn
  have hmod : ∀ i : ℕ, (i : ℤ).fmod cols = ((i % cols.toNat : ℕ) : ℤ) := fun i => by
    rw [Int.fmod_eq_emod _ hcolsnn, Int.natCast_mod, hcast]
  have hdiv : ∀ i : ℕ, (i : ℤ).fdiv cols = ((i / cols.toNat : ℕ) : ℤ) := fun i => by
    rw [Int.fdiv_eq_ediv _ hcolsnn, Int.natCast_div, hcast]
  unfold compose_contact_sheet
  rw [h0]
  dsimp only
  congr 2
  exact List.map_congr_left fun i _ => by rw [hmod i, hdiv i]

/-- Witness for claim C5: the spec's own example grid (`cols=3`, `gap=5`,
`margin=5`, thumbnails 320×180) with two images. -/
theorem c5_contact_sheet_layout_witness :
    compose_contact_sheet [⟨320, 180⟩, ⟨320, 180⟩] 3 2 5 5 =
      some
        { width := 3 * 320 + (3 - 1) * 5 + 2 * 5
          height := 2 * 180 + (2 - 1) * 5 + 2 * 5
          pastes :=
            (List.range 2).map fun (i : ℕ) =>
              ((5 : ℤ) + ((i % 3 : ℕ) : ℤ) * (320 + 5),
               (5 : ℤ) + ((i / 3 : ℕ) : ℤ) * (180 + 5)) } :=
  c5_contact_sheet_layout [⟨320, 180⟩, ⟨320, 180⟩] ⟨320, 180⟩ 3 2 5 5
    rfl (by decide) (by decide) (by decide) (by decide)

/-- Claim C6: for positive source and maximum dimensions,
`compute_scaled_dimensions` returns `floor(src*scale)` for
`scale = min(maxW/srcW, maxH/srcH)`, each coordinate clamped to `[1, max]`,
so the result never exceeds the requested box.  Python float arithmetic is
modelled as exact rational arithmetic. -/
theorem c6_scaled_dimensions_spec
    (srcW srcH maxW maxH : ℤ)
    (h1 : 0 < srcW) (h2 : 0 < srcH) (h3 : 0 < maxW) (h4 : 0 < maxH) :
    compute_scaled_dimensions srcW srcH maxW maxH =
      .ok (max 1 (min maxW
             ⌊(srcW : ℚ) * min ((maxW : ℚ) / (srcW : ℚ)) ((maxH : ℚ) / (srcH : ℚ))⌋),
           max 1 (min maxH
             ⌊(srcH : ℚ) * min ((maxW : ℚ) / (srcW : ℚ)) ((maxH : ℚ) / (srcH : ℚ))⌋)) ∧
    max 1 (min maxW
        ⌊(srcW : ℚ) * min ((maxW : ℚ) / (srcW : ℚ)) ((maxH : ℚ) / (srcH : ℚ))⌋) ≤ maxW ∧
    max 1 (min maxH
        ⌊(srcH : ℚ) * min ((maxW : ℚ) / (srcW : ℚ)) ((maxH : ℚ) / (srcH : ℚ))⌋) ≤ maxH := by
  have hW : (0 : ℚ) < (srcW : ℚ) := by exact_mod_cast h1
  have hH : (0 : ℚ) < (srcH : ℚ) := by exact_mod_cast h2
  have hMW : (0 : ℚ) < (maxW : ℚ) := by exact_mod_cast h3
  have hMH : (0 : ℚ) < (maxH : ℚ) := by exact_mod_cast h4
  have hscale : 0 < min ((maxW : ℚ) / (srcW : ℚ)) ((maxH : ℚ) / (srcH : ℚ)) :=
    lt_min (div_pos hMW hW) (div_pos hMH hH)
  have hnO : ¬ (srcW ≤ 0 ∨ srcH ≤ 0) := by omega
  rw [compute_scaled_dimensions, if_neg hnO, if_neg (not_le.mpr hscale)]
  have hp1 : pyInt ((srcW : ℚ) * min ((maxW : ℚ) / (srcW : ℚ)) ((maxH : ℚ) / (srcH : ℚ))) =
      ⌊(srcW : ℚ) * min ((maxW : ℚ) / (srcW : ℚ)) ((maxH : ℚ) / (srcH : ℚ))⌋ := by
    rw [pyInt, if_neg (not_lt.mpr (le_of_lt (mul_pos hW hscale)))]
  have hp2 : pyInt ((srcH : ℚ) * min ((maxW : ℚ) / (srcW : ℚ)) ((maxH : ℚ) / (srcH : ℚ))) =
      ⌊(srcH : ℚ) * min ((maxW : ℚ) / (srcW : ℚ)) ((maxH : ℚ) / (srcH : ℚ))⌋ := by
    rw [pyInt, if_neg (not_lt.mpr (le_of_lt (mul_pos hH hscale)))]
  refine ⟨by rw [hp1, hp2], ?_, ?_⟩ <;> omega

/-- Witness for claim C6: a 1920×1080 source scaled into a 320×180 box. -/
theorem c6_scaled_dimensions_spec_witness :
    compute_scaled_dimensions 1920 1080 320 180 =
      .ok (max 1 (min 320
             ⌊(1920 : ℚ) * min ((320 : ℚ) / (1920 : ℚ)) ((180 : ℚ) / (1080 : ℚ))⌋),
           max 1 (min 180
             ⌊(1080 : ℚ) * min ((320 : ℚ) / (1920 : ℚ)) ((180 : ℚ) / (1080 : ℚ))⌋)) ∧
    max 1 (min 320
        ⌊(1920 : ℚ) * min ((320 : ℚ) / (1920 : ℚ)) ((180 : ℚ) / (1080 : ℚ))⌋) ≤ 320 ∧
    max 1 (min 180
        ⌊(1080 : ℚ) * min ((320 : ℚ) / (1920 : ℚ)) ((180 : ℚ) / (1080 : ℚ))⌋) ≤ 180 :=
  c6_scaled_dimensions_spec 1920 1080 320 180
    (by decide) (by decide) (by decide) (by decide)

/-- Claim C7: for duration `D > 0` and `T ≥ 1` frames,
`compute_time_points` returns exactly the `T` instants `D/(T+1) * k` for
`k = 1..T`, which are strictly increasing and lie strictly between `0` and
`D`.  Python float arithmetic is modelled as exact rational arithmetic. -/
theorem c7_time_points_spec (D : ℚ) (T : ℕ) (hD : 0 < D) (hT : 1 ≤ T) :
    (compute_time_points D T).length = T ∧
    compute_time_points D T =
      (List.range T).map (fun (k : ℕ) => D / ((T : ℚ) + 1) * ((k : ℚ) + 1)) ∧
    List.Pairwise (· < ·) (compute_time_points D T) ∧
    ∀ x ∈ compute_time_points D T, 0 < x ∧ x < D := by
  have hT1 : (0 : ℚ) < (T : ℚ) + 1 := by positivity
  have hint : 0 < D / ((T : ℚ) + 1) := div_pos hD hT1
  refine ⟨by simp [compute_time_points], rfl, ?_, ?_⟩
  · rw [compute_time_points]
    refine (List.pairwise_lt_range T).map _ ?_
    intro a b hab
    have hcast : ((a : ℚ) + 1) < ((b : ℚ) + 1) := by
      have : (a : ℚ) < (b : ℚ) := by exact_mod_cast hab
      linarith
    exact mul_lt_mul_of_pos_left hcast hint
  · intro x hx
    rw [compute_time_points] at hx
    simp only [List.mem_map, List.mem_range] at hx
    obtain ⟨k, hk, rfl⟩ := hx
    constructor
    · positivity
    · have hlt : ((k : ℚ) + 1) < ((T : ℚ) + 1) := by
        have : (k : ℚ) < (T : ℚ) := by exact_mod_cast hk
        linarith
      calc D / ((T : ℚ) + 1) * ((k : ℚ) + 1)
          < D / ((T : ℚ) + 1) * ((T : ℚ) + 1) := mul_lt_mul_of_pos_left hlt hint
        _ = D := div_mul_cancel₀ D (ne_of_gt hT1)

/-- Witness for claim C7: a 10-second video sampled at 4 instants. -/
theorem c7_time_points_spec_witness :
    compute_time_points 10 4 =
      (List.range 4).map (fun (k : ℕ) => (10 : ℚ) / ((4 : ℕ) + (1 : ℚ)) * ((k : ℚ) + 1)) :=
  (c7_time_points_spec 10 4 (by norm_num) (by norm_num)).2.1

/-- Claim C8: when the computed destination path for a group already exists,
the per-group processing step skips the merge entirely (`merge_videos` is
not invoked, the action is reported as already present) and leaves the file
state — the destination and every source file included — unchanged. -/
theorem c8_skip_when_destination_exists
    (group : List String) (target_folder : String) (env : MergeEnv)
    (fs : FS) (dirs : List String) (first last : String) (m : FileMeta)
    (hfirst : group.head? = some first) (hlast : group.getLast? = some last)
    (hex : lookupFile fs
        (joinPath target_folder (create_combined_filename first last)) = some m) :
    process_group group target_folder env fs dirs =
      .ok (fs, makedirs dirs target_folder, .skippedExists) := by
  simp only [process_group, hfirst, hlast, hex]
  simp

/-- Witness for claim C8 at a concrete input whose destination is present. -/
theorem c8_skip_when_destination_exists_witness :
    process_group ["20250419195801_000785AC.MP4", "20250419195803_000786AC.MP4"] "t"
        ⟨100, 0, ⟨7, 8⟩⟩
        [("t/20250419195801_20250419195803_000785AC.MP4", ⟨1, 2⟩)] [] =
      .ok ([("t/20250419195801_20250419195803_000785AC.MP4", ⟨1, 2⟩)], ["t"],
           .skippedExists) :=
  c8_skip_when_destination_exists _ _ _ _ _ "20250419195801_000785AC.MP4"
    "20250419195803_000786AC.MP4" ⟨1, 2⟩ (by decide) (by decide) (by decide)

/-- Claim C9: the contact-sheet geometry is derived solely from the first
image and the image count: two non-empty lists of equal length whose first
images have equal size yield identical canvases and paste positions, with no
check on the sizes of the remaining images. -/
theorem c9_layout_depends_only_on_first_image
    (imgs1 imgs2 : List PILImage) (a b : PILImage) (cols rows gap margin : ℤ)
    (h1 : imgs1.head? = some a) (h2 : imgs2.head? = some b)
    (hw : a.width = b.width) (hh : a.height = b.height)
    (hlen : imgs1.length = imgs2.length) :
    compose_contact_sheet imgs1 cols rows gap margin =
      compose_contact_sheet imgs2 cols rows gap margin := by
  unfold compose_contact_sheet
  rw [h1, h2]
  simp only [hw, hh, hlen]

/-- Witness for claim C9: the second list's later image has a different size
and the layout is nevertheless identical. -/
theorem c9_layout_depends_only_on_first_image_witness :
    compose_contact_sheet [⟨320, 180⟩, ⟨320, 180⟩] 3 4 5 5 =
      compose_contact_sheet [⟨320, 180⟩, ⟨100, 50⟩] 3 4 5 5 :=
  c9_layout_depends_only_on_first_image
    [⟨320, 180⟩, ⟨320, 180⟩] [⟨320, 180⟩, ⟨100, 50⟩] ⟨320, 180⟩ ⟨320, 180⟩
    3 4 5 5 rfl rfl rfl rfl rfl

/-- Claim C10: `format_timestamp` always produces a string of the form
`HH:MM:SS.mmm` with minutes and seconds in `00`–`59` and milliseconds in
`000`–`999`; negative inputs are clamped to zero, and a fractional part
whose rounding yields 1000 milliseconds carries into the seconds field
rather than printing a `.1000` field.  Python float input is modelled as an
exact rational. -/
theorem c10_format_timestamp_shape (seconds : ℚ) :
    (∃ hh mm ss ms : ℕ,
      format_timestamp seconds =
        padNat 2 hh ++ ":" ++ padNat 2 mm ++ ":" ++ padNat 2 ss ++ "." ++ padNat 3 ms ∧
      mm < 60 ∧ ss < 60 ∧ ms < 1000) ∧
    format_timestamp seconds = format_timestamp (max seconds 0) := by
  constructor
  · set s := max seconds 0 with hs
    have hs0 : 0 ≤ s := le_max_right seconds 0
    set w0 : ℕ := (pyInt s).toNat with hw0
    set m0 : ℕ := (pyRound ((s - (w0 : ℚ)) * 1000)).toNat with hm0
    refine ⟨(if m0 = 1000 then w0 + 1 else w0) / 3600,
            ((if m0 = 1000 then w0 + 1 else w0) % 3600) / 60,
            (if m0 = 1000 then w0 + 1 else w0) % 60,
            if m0 = 1000 then 0 else m0, ?_, ?_, ?_, ?_⟩
    · rfl
    · omega
    · omega
    · have hpy : pyInt s = ⌊s⌋ := by
        rw [pyInt, if_neg (not_lt.mpr hs0)]
      have hwval : ((w0 : ℕ) : ℚ) = (⌊s⌋ : ℚ) := by
        rw [hw0, hpy]
        norm_cast
        exact Int.toNat_of_nonneg (Int.floor_nonneg.mpr hs0)
      have hfrac : (s - (w0 : ℚ)) * 1000 < 1000 := by
        rw [hwval]
        nlinarith [Int.sub_one_lt_floor s]
      have hfl : ⌊(s - (w0 : ℚ)) * 1000⌋ ≤ 999 := by
        have := Int.floor_lt.mpr (by exact_mod_cast hfrac :
          (s - (w0 : ℚ)) * 1000 < ((1000 : ℤ) : ℚ))
        omega
      have hle : pyRound ((s - (w0 : ℚ)) * 1000) ≤ 1000 :=
        le_trans (pyRound_le _) (by omega)
      have hm0le : m0 ≤ 1000 := by
        rw [hm0]
        exact Int.toNat_le.mpr hle
      by_cases hc : m0 = 1000
      · simp [hc]
      · rw [if_neg hc]
        omega
  · rw [format_timestamp, format_timestamp, max_eq_left (le_max_right seconds 0)]

end DashcamScripts
